import Mathlib

/-!
Shallow embedding of `src/tiled_map.rs` from the bevy_tiled repository.

The Rust decoder `TiledMap::from_bytes` drives a `quick_xml::Reader` over the
input bytes and reacts to the stream of XML events.  We embed the decoder at
the event level: an input document is a finite list of `XEvent`s (the events
the reader would produce; `quick_xml` itself is an external crate).  Attribute
values are carried as strings (the `std::str::from_utf8` step of the source is
below this abstraction; attribute iteration errors likewise).

Panics (`unwrap`, `expect`, `panic!`) abort the process; we model an aborted
decode as `DecodeResult.abort msg`, where `msg` is the `expect`/`panic!`
message from the source (for `unwrap` on `None`/`Err` we use fixed abbreviated
messages).  The inner layer loop of the source ignores `Event::Eof`
(`_ => {}`), so a document that ends while a `layer` element is still open
makes the Rust loop spin forever; we model that outcome as
`DecodeResult.hang`.

Where the source does not compile as written, the embedding keeps the
operational reading its statements demand and the surrounding comments record
the deviation (see `tilesetAttrUpd`).
-/

/-- `TiledLayer` from src/tiled_map.rs lines 6-11.  `tiles` holds u32 values
(kept as `Nat`, each value below 2^32 by construction of the reader). -/
structure TiledLayer where
  name : String
  visible : Bool
  tiles : List Nat
deriving Repr, DecidableEq

/-- `TiledMapTileset` from src/tiled_map.rs lines 13-17. -/
structure TiledMapTileset where
  first_gid : Nat
  source : String
deriving Repr, DecidableEq

/-- `TiledMap` from src/tiled_map.rs lines 19-27. -/
structure TiledMap where
  width : Nat
  height : Nat
  tile_width : Nat
  tile_height : Nat
  layers : List TiledLayer
  tilesets : List TiledMapTileset
deriving Repr, DecidableEq

/-- The XML events `TiledMap::from_bytes` dispatches on: `Event::Start`,
`Event::End`, `Event::Text`, `Event::Eof`, and a reader error `Err(e)`. -/
inductive XEvent where
  | start (name : String) (attrs : List (String × String))
  | stop (name : String)
  | text (content : String)
  | eof
  | err (msg : String)
deriving Repr, DecidableEq

/-- Outcome of running the decoder: a returned `TiledMap`, a process abort via
panic (with the panic message), or the infinite loop reached when the input
ends inside an open `layer` element. -/
inductive DecodeResult where
  | ok (m : TiledMap)
  | abort (msg : String)
  | hang
deriving Repr, DecidableEq

/-- Abbreviated message of the Rust panic from `Option::unwrap` on `None`. -/
def unwrapNoneMsg : String := "called unwrap on a None value"

/-- Abbreviated message of the Rust panic from `unwrap` on a `ParseIntError`. -/
def parseIntPanicMsg : String := "called unwrap on a ParseIntError"

/-- Abbreviated message of the Rust panic from `unwrap` on a `ParseBoolError`. -/
def parseBoolPanicMsg : String := "called unwrap on a ParseBoolError"

/-- Abbreviated message of the Rust panic from `read_u32::<LittleEndian>().unwrap()`
when the cursor has fewer than 4 bytes left. -/
def readU32PanicMsg : String := "called unwrap on an Err value"

/-- Digit accumulation for `parseU32`. -/
def parseDigits : List Char → Nat → Option Nat
  | [], acc => some acc
  | c :: rest, acc =>
    if c.isDigit then parseDigits rest (acc * 10 + (c.toNat - 48)) else none

/-- Model of Rust `str.parse::<u32>()`: an optional leading plus sign, then at
least one ASCII digit, and the value must fit in 32 bits (overflow is `Err`). -/
def parseU32 (s : String) : Option Nat :=
  let cs := if s.toList.head? = some '+' then s.toList.tail else s.toList
  match cs with
  | [] => none
  | _ =>
    match parseDigits cs 0 with
    | some n => if n < 4294967296 then some n else none
    | none => none

/-- Model of Rust `str.parse::<bool>()`: exactly "true" or "false". -/
def parseBool (s : String) : Option Bool :=
  if s = "true" then some true
  else if s = "false" then some false
  else none

/-- Decoder state of the outer loop of `TiledMap::from_bytes`
(src/tiled_map.rs lines 48-57): the four optional map attributes plus the
accumulated tilesets and layers. -/
structure MState where
  map_width : Option Nat
  map_height : Option Nat
  map_tilewidth : Option Nat
  map_tileheight : Option Nat
  tilesets : List TiledMapTileset
  layers : List TiledLayer
deriving Repr, DecidableEq

/-- State of the inner per-layer loop (src/tiled_map.rs lines 110-142): the
layer name and visibility, the map dimensions captured at layer entry
(`map_width.unwrap()` / `map_height.unwrap()`), the recorded `encoding`
attribute, and the "inside data" flag. -/
structure LState where
  name : String
  visible : Bool
  width : Nat
  height : Nat
  encoding : Option String
  state_is_in_data : Bool
deriving Repr, DecidableEq

/-- The `for attr in e.attributes()` loops of the source: thread a state
through the attribute list, stopping at the first panic. -/
def foldE {σ α : Type} (f : σ → α → Except String σ) : σ → List α → Except String σ
  | s, [] => .ok s
  | s, a :: as =>
    match f s a with
    | .ok s2 => foldE f s2 as
    | .error msg => .error msg

/-- One attribute of the `map` element (src/tiled_map.rs lines 64-85): the keys
`height`, `width`, `tileheight`, `tilewidth` are parsed as u32 (a parse failure
is an `unwrap` panic); other keys are ignored. -/
def mapAttrUpd (st : MState) (kv : String × String) : Except String MState :=
  if kv.1 = "height" then
    match parseU32 kv.2 with
    | some v => .ok { st with map_height := some v }
    | none => .error parseIntPanicMsg
  else if kv.1 = "width" then
    match parseU32 kv.2 with
    | some v => .ok { st with map_width := some v }
    | none => .error parseIntPanicMsg
  else if kv.1 = "tileheight" then
    match parseU32 kv.2 with
    | some v => .ok { st with map_tileheight := some v }
    | none => .error parseIntPanicMsg
  else if kv.1 = "tilewidth" then
    match parseU32 kv.2 with
    | some v => .ok { st with map_tilewidth := some v }
    | none => .error parseIntPanicMsg
  else .ok st

/-- One attribute of a map-level `tileset` element (src/tiled_map.rs lines
90-104).  The source has two match arms that are BOTH labelled `b"firstgid"`;
the second arm, whose body assigns `source`, is unreachable under first-match
semantics, so no attribute key ever assigns `source`.  (As written the source
also declares `first_gid` and `source` without `mut` and then assigns them, so
the function does not compile; the embedding reads the assignments as the
mutation they demand.) -/
def tilesetAttrUpd (acc : Option Nat × Option String) (kv : String × String) :
    Except String (Option Nat × Option String) :=
  if kv.1 = "firstgid" then
    match parseU32 kv.2 with
    | some v => .ok (some v, acc.2)
    | none => .error parseIntPanicMsg
  else .ok acc

/-- One attribute of a `layer` element (src/tiled_map.rs lines 113-134):
`name` is recorded as a string, `visible` parsed as bool, others ignored. -/
def layerAttrUpd (acc : Option String × Bool) (kv : String × String) :
    Except String (Option String × Bool) :=
  if kv.1 = "name" then .ok (some kv.2, acc.2)
  else if kv.1 = "visible" then
    match parseBool kv.2 with
    | some b => .ok (acc.1, b)
    | none => .error parseBoolPanicMsg
  else .ok acc

/-- One attribute of a `data` element (src/tiled_map.rs lines 148-158): only
`encoding` is recorded. -/
def dataAttrFold (enc : Option String) (kv : String × String) : Option String :=
  if kv.1 = "encoding" then some kv.2 else enc

/-- The standard base64 alphabet used by `base64::decode` / `base64::encode`. -/
def b64Alphabet : List Char :=
  "ABCDEFGHIJKLMNOPQRSTUVWXYZabcdefghijklmnopqrstuvwxyz0123456789+/".toList

/-- Value 0-63 to base64 character. -/
def encB64 (n : Nat) : Char := b64Alphabet.getD n 'A'

/-- Base64 character back to its 6-bit value; `none` for characters outside
the alphabet (including the padding character). -/
def decB64 (c : Char) : Option Nat := b64Alphabet.findIdx? (fun x => x = c)

/-- Standard base64 encoding of a byte list (bytes as `Nat` below 256),
canonical padded form: the encoding the `base64` crate produces. -/
def b64Encode : List Nat → List Char
  | [] => []
  | [a] => [encB64 (a / 4), encB64 (a % 4 * 16), '=', '=']
  | [a, b] => [encB64 (a / 4), encB64 (a % 4 * 16 + b / 16), encB64 (b % 16 * 4), '=']
  | a :: b :: c :: rest =>
    encB64 (a / 4) :: encB64 (a % 4 * 16 + b / 16) ::
      encB64 (b % 16 * 4 + c / 64) :: encB64 (c % 64) :: b64Encode rest

/-- Model of `base64::decode` on a character list: 4-character groups, padding
only in a final group, `none` on any malformed input. -/
def b64DecodeChunks : List Char → Option (List Nat)
  | [] => some []
  | c1 :: c2 :: c3 :: c4 :: rest =>
    if rest = [] ∧ c3 = '=' ∧ c4 = '=' then
      match decB64 c1, decB64 c2 with
      | some a, some b => some [a * 4 + b / 16]
      | _, _ => none
    else if rest = [] ∧ c4 = '=' then
      match decB64 c1, decB64 c2, decB64 c3 with
      | some a, some b, some c => some [a * 4 + b / 16, b % 16 * 16 + c / 4]
      | _, _, _ => none
    else
      match decB64 c1, decB64 c2, decB64 c3, decB64 c4, b64DecodeChunks rest with
      | some a, some b, some c, some d, some tail =>
        some ((a * 4 + b / 16) :: (b % 16 * 16 + c / 4) :: (c % 4 * 64 + d) :: tail)
      | _, _, _, _, _ => none
  | _ => none

/-- Model of `base64::decode` on the text content (src/tiled_map.rs line 174). -/
def b64Decode (s : String) : Option (List Nat) := b64DecodeChunks s.toList

/-- The cursor loop of src/tiled_map.rs lines 182-190: read `count` u32 values
little-endian from the byte list; `none` models the `unwrap` panic when fewer
than 4 bytes remain.  Bytes left over after `count` reads are ignored, exactly
as the source never looks at the cursor again. -/
def readU32s (bs : List Nat) : Nat → Option (List Nat)
  | 0 => some []
  | n + 1 =>
    match bs with
    | b0 :: b1 :: b2 :: b3 :: rest =>
      (readU32s rest n).map fun ts => (b0 + b1 * 256 + b2 * 65536 + b3 * 16777216) :: ts
    | _ => none

/-- The expected tile count `(width * height)` of src/tiled_map.rs lines
183-186.  The multiplication is performed on `u32` with no widening and no
bounds check, so the value wraps modulo 2^32 (release builds; a debug build
aborts on overflow at this multiplication instead). -/
def expectedTileCount (width height : Nat) : Nat :=
  width * height % 4294967296

/-- The layer payload pipeline of src/tiled_map.rs lines 174-190: base64-decode
the (already unescaped) text, then read `count` little-endian u32 words.
`Except.error` carries the panic message of the corresponding `expect`/`unwrap`. -/
def decodeLayerPayload (t : String) (count : Nat) : Except String (List Nat) :=
  match b64Decode t with
  | none => .error "malformed layer data"
  | some bytes =>
    match readU32s bytes count with
    | none => .error readU32PanicMsg
    | some tiles => .ok tiles

/-- The construction of the returned `TiledMap` after the outer loop breaks
(src/tiled_map.rs lines 222-229): each dimension is `expect`-unwrapped. -/
def finalizeMap (st : MState) : DecodeResult :=
  match st.map_width with
  | none => .abort "map width must be set"
  | some w =>
    match st.map_height with
    | none => .abort "map height must be set"
    | some h =>
      match st.map_tilewidth with
      | none => .abort "map tile width must me set"
      | some tw =>
        match st.map_tileheight with
        | none => .abort "map tile height must me set"
        | some th => .ok ⟨w, h, tw, th, st.layers, st.tilesets⟩

/-- The event loop of `TiledMap::from_bytes` (src/tiled_map.rs lines 60-220).
`mode = none` is the outer loop; `mode = some ls` is the nested per-layer loop
entered on a `layer` start tag (the nested loop reads from the same event
stream, so the two loops are one recursion with a mode flag).  An empty event
list stands for the reader returning `Event::Eof` from now on: the outer loop
breaks and builds the map, the inner loop ignores `Eof` and spins forever. -/
def runEvents : List XEvent → MState → Option LState → DecodeResult
  | [], st, none => finalizeMap st
  | [], _, some _ => .hang
  | .start n attrs :: rest, st, none =>
    if n = "map" then
      match foldE mapAttrUpd st attrs with
      | .ok st2 => runEvents rest st2 none
      | .error msg => .abort msg
    else if n = "tileset" then
      match foldE tilesetAttrUpd (none, none) attrs with
      | .error msg => .abort msg
      | .ok acc =>
        match acc.1 with
        | none => .abort unwrapNoneMsg
        | some g =>
          match acc.2 with
          | none => .abort unwrapNoneMsg
          | some src =>
            runEvents rest { st with tilesets := st.tilesets ++ [⟨g, src⟩] } none
    else if n = "layer" then
      match foldE layerAttrUpd (none, true) attrs with
      | .error msg => .abort msg
      | .ok acc =>
        match acc.1 with
        | none => .abort "name not set on layer"
        | some nm =>
          match st.map_width with
          | none => .abort unwrapNoneMsg
          | some w =>
            match st.map_height with
            | none => .abort unwrapNoneMsg
            | some h =>
              runEvents rest st (some ⟨nm, acc.2, w, h, none, false⟩)
    else runEvents rest st none
  | .stop _ :: rest, st, none => runEvents rest st none
  | .text _ :: rest, st, none => runEvents rest st none
  | .eof :: _, st, none => finalizeMap st
  | .err msg :: _, _, none => .abort ("Error at position: " ++ msg)
  | .start n attrs :: rest, st, some ls =>
    if n = "data" then
      runEvents rest st
        (some { ls with encoding := attrs.foldl dataAttrFold ls.encoding,
                        state_is_in_data := true })
    else runEvents rest st (some ls)
  | .stop n :: rest, st, some ls =>
    if n = "data" then
      runEvents rest st (some { ls with state_is_in_data := false })
    else if n = "layer" then
      runEvents rest st none
    else runEvents rest st (some ls)
  | .text t :: rest, st, some ls =>
    if ls.state_is_in_data then
      match ls.encoding with
      | none => .abort "layer data must have a set encoding"
      | some e =>
        if e = "base64" then
          match decodeLayerPayload t (expectedTileCount ls.width ls.height) with
          | .error msg => .abort msg
          | .ok tiles =>
            runEvents rest
              { st with layers := st.layers ++ [⟨ls.name, ls.visible, tiles⟩] }
              (some ls)
        else .abort "layer data must be encoded with base64"
    else runEvents rest st (some ls)
  | .eof :: _, _, some _ => .hang
  | .err _ :: rest, st, some ls => runEvents rest st (some ls)

/-- Little-endian 4-byte serialization of a u32 value: the inverse direction
of the `read_u32::<LittleEndian>` step, used to state the round-trip claim. -/
def u32ToLE (t : Nat) : List Nat :=
  [t % 256, t / 256 % 256, t / 65536 % 256, t / 16777216 % 256]

/-- Little-endian serialization of a whole tile sequence. -/
def tilesToLE (ts : List Nat) : List Nat := (ts.map u32ToLE).flatten

/-- Whether an event is the opening of a `map` element. -/
def isMapStart : XEvent → Bool
  | .start n _ => n = "map"
  | _ => false

/-- Whether the stream contains a `map` start event. -/
def hasMapStart (evs : List XEvent) : Bool := evs.any isMapStart

/-- Number of `map` start events in the stream. -/
def mapStarts (evs : List XEvent) : Nat := evs.countP isMapStart

/-- The initial state of the outer loop (src/tiled_map.rs lines 48-57). -/
def initMState : MState := ⟨none, none, none, none, [], []⟩

/-- `TiledMap::from_bytes` (src/tiled_map.rs lines 44-231), at the event level. -/
def TiledMap.from_bytes (events : List XEvent) : DecodeResult :=
  runEvents events initMState none

theorem decB64_encB64 : ∀ k, k < 64 → decB64 (encB64 k) = some k := by decide

theorem encB64_ne_pad : ∀ k, k < 64 → encB64 k ≠ '=' := by decide

theorem b64_roundtrip : ∀ bs : List Nat, (∀ x ∈ bs, x < 256) →
    b64DecodeChunks (b64Encode bs) = some bs
  | [], _ => rfl
  | [a], h => by
    have ha : a < 256 := h a (by simp)
    have h1 := decB64_encB64 (a / 4) (by omega)
    have h2 := decB64_encB64 (a % 4 * 16) (by omega)
    simp only [b64Encode, b64DecodeChunks, and_self, if_true, h1, h2,
      Option.some.injEq, List.cons.injEq, and_true]
    omega
  | [a, b], h => by
    have ha : a < 256 := h a (by simp)
    have hb : b < 256 := h b (by simp)
    have h1 := decB64_encB64 (a / 4) (by omega)
    have h2 := decB64_encB64 (a % 4 * 16 + b / 16) (by omega)
    have h3 := decB64_encB64 (b % 16 * 4) (by omega)
    have hn3 : encB64 (b % 16 * 4) ≠ '=' := encB64_ne_pad (b % 16 * 4) (by omega)
    simp only [b64Encode, b64DecodeChunks, hn3, false_and, and_false, if_false,
      and_self, if_true, h1, h2, h3, Option.some.injEq, List.cons.injEq, and_true]
    constructor <;> omega
  | a :: b :: c :: rest, h => by
    have ha : a < 256 := h a (by simp)
    have hb : b < 256 := h b (by simp)
    have hc : c < 256 := h c (by simp)
    have h1 := decB64_encB64 (a / 4) (by omega)
    have h2 := decB64_encB64 (a % 4 * 16 + b / 16) (by omega)
    have h3 := decB64_encB64 (b % 16 * 4 + c / 64) (by omega)
    have h4 := decB64_encB64 (c % 64) (by omega)
    have hn3 : encB64 (b % 16 * 4 + c / 64) ≠ '=' := encB64_ne_pad _ (by omega)
    have hn4 : encB64 (c % 64) ≠ '=' := encB64_ne_pad _ (by omega)
    have ih := b64_roundtrip rest (fun x hx => h x (by simp [hx]))
    simp only [b64Encode, b64DecodeChunks, hn3, hn4, false_and, and_false, if_false,
      and_self, if_true, h1, h2, h3, h4, ih, Option.some.injEq, List.cons.injEq, and_true]
    refine ⟨by omega, by omega, by omega⟩

theorem b64Decode_mk (cs : List Char) : b64Decode (String.mk cs) = b64DecodeChunks cs := rfl

theorem readU32s_length : ∀ (n : Nat) (bs ts : List Nat), readU32s bs n = some ts →
    ts.length = n := by
  intro n
  induction n with
  | zero =>
    intro bs ts h
    simp only [readU32s] at h
    cases h
    rfl
  | succ n ih =>
    intro bs ts h
    match bs with
    | [] => simp [readU32s] at h
    | [b0] => simp [readU32s] at h
    | [b0, b1] => simp [readU32s] at h
    | [b0, b1, b2] => simp [readU32s] at h
    | b0 :: b1 :: b2 :: b3 :: rest =>
      simp only [readU32s, Option.map_eq_some'] at h
      obtain ⟨ts2, hts2, hcons⟩ := h
      subst hcons
      simp [ih rest ts2 hts2]

theorem readU32s_short : ∀ (n : Nat) (bs : List Nat), bs.length < 4 * n →
    readU32s bs n = none := by
  intro n
  induction n with
  | zero => intro bs h; omega
  | succ n ih =>
    intro bs h
    match bs with
    | [] => rfl
    | [b0] => rfl
    | [b0, b1] => rfl
    | [b0, b1, b2] => rfl
    | b0 :: b1 :: b2 :: b3 :: rest =>
      have : rest.length < 4 * n := by simp at h; omega
      simp [readU32s, ih rest this]

theorem tilesToLE_lt : ∀ (ts : List Nat), ∀ x ∈ tilesToLE ts, x < 256 := by
  intro ts
  induction ts with
  | nil => intro x hx; simp [tilesToLE] at hx
  | cons t rest ih =>
    intro x hx
    simp only [tilesToLE, List.map_cons, List.flatten_cons, List.mem_append] at hx
    rcases hx with hx | hx
    · simp only [u32ToLE, List.mem_cons, List.not_mem_nil, or_false] at hx
      rcases hx with rfl | rfl | rfl | rfl <;> omega
    · exact ih x hx

theorem readU32s_tilesToLE : ∀ (ts : List Nat), (∀ x ∈ ts, x < 4294967296) →
    readU32s (tilesToLE ts) ts.length = some ts := by
  intro ts
  induction ts with
  | nil => intro h; rfl
  | cons t rest ih =>
    intro h
    have ht : t < 4294967296 := h t (by simp)
    have ihr := ih (fun x hx => h x (by simp [hx]))
    simp only [tilesToLE] at ihr
    simp only [tilesToLE, List.map_cons, List.flatten_cons, u32ToLE, List.cons_append,
      List.append_eq, List.nil_append, List.length_cons, readU32s, ihr, Option.map_some',
      Option.some.injEq, List.cons.injEq, and_true]
    omega

theorem decodeLayerPayload_length (t : String) (c : Nat) (tiles : List Nat)
    (h : decodeLayerPayload t c = .ok tiles) : tiles.length = c := by
  unfold decodeLayerPayload at h
  cases hb : b64Decode t with
  | none => rw [hb] at h; exact absurd h (by simp)
  | some bytes =>
    simp only [hb] at h
    cases hr : readU32s bytes c with
    | none => rw [hr] at h; exact absurd h (by simp)
    | some ts =>
      simp only [hr, Except.ok.injEq] at h
      subst h
      exact readU32s_length c bytes ts hr

theorem finalizeMap_ok (st : MState) (m : TiledMap) (h : finalizeMap st = .ok m) :
    st.map_width = some m.width ∧ st.map_height = some m.height ∧
      m.layers = st.layers ∧ m.tilesets = st.tilesets := by
  unfold finalizeMap at h
  cases hw : st.map_width with
  | none => rw [hw] at h; exact absurd h (by simp)
  | some w =>
    simp only [hw] at h
    cases hh : st.map_height with
    | none => rw [hh] at h; exact absurd h (by simp)
    | some hg =>
      simp only [hh] at h
      cases htw : st.map_tilewidth with
      | none => rw [htw] at h; exact absurd h (by simp)
      | some tw =>
        simp only [htw] at h
        cases hth : st.map_tileheight with
        | none => rw [hth] at h; exact absurd h (by simp)
        | some th =>
          simp only [hth, DecodeResult.ok.injEq] at h
          subst h
          exact ⟨rfl, rfl, rfl, rfl⟩

theorem mapAttrUpd_keeps (st : MState) (kv : String × String) (st2 : MState)
    (h : mapAttrUpd st kv = .ok st2) : st2.layers = st.layers ∧ st2.tilesets = st.tilesets := by
  unfold mapAttrUpd at h
  repeat' split at h
  all_goals cases h
  all_goals exact ⟨rfl, rfl⟩

/-- Master invariant of the event loop on streams with no `map` start event:
a successful run can only finish with the dimensions already in the incoming
state, and every layer of the result either was already accumulated or has
exactly `expectedTileCount` tiles for those dimensions. -/
theorem runEvents_noMap_ok : ∀ (evs : List XEvent) (st : MState) (mode : Option LState)
    (m : TiledMap),
    mapStarts evs = 0 →
    (∀ ls, mode = some ls → st.map_width = some ls.width ∧ st.map_height = some ls.height) →
    runEvents evs st mode = .ok m →
    st.map_width = some m.width ∧ st.map_height = some m.height ∧
      ∀ l ∈ m.layers, l ∈ st.layers ∨
        l.tiles.length = expectedTileCount m.width m.height := by
  intro evs
  induction evs with
  | nil =>
    intro st mode m h0 hpre h
    cases mode with
    | some ls => exact absurd h (by simp [runEvents])
    | none =>
      have hf := finalizeMap_ok st m h
      exact ⟨hf.1, hf.2.1, fun l hl => Or.inl (hf.2.2.1 ▸ hl)⟩
  | cons ev rest ih =>
    intro st mode m h0 hpre h
    have h0r : mapStarts rest = 0 ∧ isMapStart ev = false := by
      unfold mapStarts at h0 ⊢
      rw [List.countP_cons] at h0
      by_cases hb : isMapStart ev = true
      · rw [if_pos hb] at h0; exact absurd h0 (by omega)
      · rw [if_neg hb] at h0
        exact ⟨by omega, by simpa using hb⟩
    cases mode with
    | none =>
      cases ev with
      | start n attrs =>
        have hn : n ≠ "map" := by
          intro hc
          rw [hc] at h0r
          simp [isMapStart] at h0r
        simp only [runEvents] at h
        rw [if_neg hn] at h
        by_cases ht : n = "tileset"
        · rw [if_pos ht] at h
          cases hf : foldE tilesetAttrUpd (none, none) attrs with
          | error msg => rw [hf] at h; exact absurd h (by simp)
          | ok acc =>
            simp only [hf] at h
            cases hg : acc.1 with
            | none => rw [hg] at h; exact absurd h (by simp)
            | some g =>
              simp only [hg] at h
              cases hs : acc.2 with
              | none => rw [hs] at h; exact absurd h (by simp)
              | some srcv =>
                simp only [hs] at h
                exact ih { st with tilesets := st.tilesets ++ [⟨g, srcv⟩] } none m h0r.1
                  (fun ls hls => by cases hls) h
        · rw [if_neg ht] at h
          by_cases hl : n = "layer"
          · rw [if_pos hl] at h
            cases hf : foldE layerAttrUpd (none, true) attrs with
            | error msg => rw [hf] at h; exact absurd h (by simp)
            | ok acc =>
              simp only [hf] at h
              cases ha : acc.1 with
              | none => rw [ha] at h; exact absurd h (by simp)
              | some nm =>
                simp only [ha] at h
                cases hw : st.map_width with
                | none => rw [hw] at h; exact absurd h (by simp)
                | some w =>
                  simp only [hw] at h
                  cases hh2 : st.map_height with
                  | none => rw [hh2] at h; exact absurd h (by simp)
                  | some hgt =>
                    simp only [hh2] at h
                    have := ih st (some ⟨nm, acc.2, w, hgt, none, false⟩) m h0r.1
                      (fun ls hls => by cases hls; exact ⟨hw, hh2⟩) h
                    exact ⟨hw.symm.trans this.1, hh2.symm.trans this.2.1, this.2.2⟩
          · rw [if_neg hl] at h
            exact ih st none m h0r.1 (fun ls hls => by cases hls) h
      | stop n =>
        simp only [runEvents] at h
        exact ih st none m h0r.1 (fun ls hls => by cases hls) h
      | text t =>
        simp only [runEvents] at h
        exact ih st none m h0r.1 (fun ls hls => by cases hls) h
      | eof =>
        simp only [runEvents] at h
        have hf := finalizeMap_ok st m h
        exact ⟨hf.1, hf.2.1, fun l hl => Or.inl (hf.2.2.1 ▸ hl)⟩
      | err msg =>
        simp only [runEvents] at h
        exact absurd h (by simp)
    | some ls =>
      cases ev with
      | start n attrs =>
        simp only [runEvents] at h
        by_cases hd : n = "data"
        · rw [if_pos hd] at h
          exact ih st _ m h0r.1 (fun ls2 hls2 => by cases hls2; exact hpre ls rfl) h
        · rw [if_neg hd] at h
          exact ih st (some ls) m h0r.1 hpre h
      | stop n =>
        simp only [runEvents] at h
        by_cases hd : n = "data"
        · rw [if_pos hd] at h
          exact ih st _ m h0r.1 (fun ls2 hls2 => by cases hls2; exact hpre ls rfl) h
        · rw [if_neg hd] at h
          by_cases hl : n = "layer"
          · rw [if_pos hl] at h
            exact ih st none m h0r.1 (fun ls2 hls2 => by cases hls2) h
          · rw [if_neg hl] at h
            exact ih st (some ls) m h0r.1 hpre h
      | text t =>
        simp only [runEvents] at h
        by_cases hind : ls.state_is_in_data = true
        · rw [if_pos hind] at h
          cases he : ls.encoding with
          | none => rw [he] at h; exact absurd h (by simp)
          | some e =>
            simp only [he] at h
            by_cases hb64 : e = "base64"
            · rw [if_pos hb64] at h
              cases hp : decodeLayerPayload t (expectedTileCount ls.width ls.height) with
              | error msg => rw [hp] at h; exact absurd h (by simp)
              | ok tiles =>
                simp only [hp] at h
                have hrec := ih { st with layers := st.layers ++ [⟨ls.name, ls.visible, tiles⟩] }
                  (some ls) m h0r.1 (fun ls2 hls2 => by cases hls2; exact hpre ls rfl) h
                refine ⟨hrec.1, hrec.2.1, ?_⟩
                intro l hl
                rcases hrec.2.2 l hl with hmem | hlen
                · rcases List.mem_append.mp hmem with h1 | h2
                  · exact Or.inl h1
                  · have hlnew : l = ⟨ls.name, ls.visible, tiles⟩ := by simpa using h2
                    right
                    have hw := hpre ls rfl
                    have e1 : ls.width = m.width := Option.some.inj (hw.1.symm.trans hrec.1)
                    have e2 : ls.height = m.height := Option.some.inj (hw.2.symm.trans hrec.2.1)
                    have hlen2 := decodeLayerPayload_length _ _ _ hp
                    rw [hlnew]
                    rw [← e1, ← e2]
                    exact hlen2
                · exact Or.inr hlen
            · rw [if_neg hb64] at h
              exact absurd h (by simp)
        · rw [if_neg hind] at h
          exact ih st (some ls) m h0r.1 hpre h
      | eof =>
        simp only [runEvents] at h
        exact absurd h (by simp)
      | err msg =>
        simp only [runEvents] at h
        exact ih st (some ls) m h0r.1 hpre h

theorem foldE_mapAttrUpd_keeps : ∀ (attrs : List (String × String)) (st st2 : MState),
    foldE mapAttrUpd st attrs = .ok st2 → st2.layers = st.layers ∧ st2.tilesets = st.tilesets := by
  intro attrs
  induction attrs with
  | nil =>
    intro st st2 h
    cases h
    exact ⟨rfl, rfl⟩
  | cons kv rest ih =>
    intro st st2 h
    simp only [foldE] at h
    cases hm : mapAttrUpd st kv with
    | error msg => rw [hm] at h; exact absurd h (by simp)
    | ok s1 =>
      rw [hm] at h
      have h2 := ih s1 st2 h
      have h1 := mapAttrUpd_keeps st kv s1 hm
      exact ⟨h2.1.trans h1.1, h2.2.trans h1.2⟩

/-- On a stream with at most one `map` start event, a successful decode from a
fresh outer state gives every layer exactly `expectedTileCount` tiles for the
dimensions of the returned map. -/
theorem runEvents_oneMap_ok : ∀ (evs : List XEvent) (st : MState) (m : TiledMap),
    mapStarts evs ≤ 1 → st.map_width = none → st.layers = [] →
    runEvents evs st none = .ok m →
    ∀ l ∈ m.layers, l.tiles.length = expectedTileCount m.width m.height := by
  intro evs
  induction evs with
  | nil =>
    intro st m h0 hwn hln h
    have hf := finalizeMap_ok st m h
    rw [hwn] at hf
    exact absurd hf.1 (by simp)
  | cons ev rest ih =>
    intro st m h0 hwn hln h
    have h0le : mapStarts rest ≤ 1 := by
      unfold mapStarts at h0 ⊢
      rw [List.countP_cons] at h0
      split at h0 <;> omega
    cases ev with
    | start n attrs =>
      simp only [runEvents] at h
      by_cases hm : n = "map"
      · rw [if_pos hm] at h
        cases hf : foldE mapAttrUpd st attrs with
        | error msg => rw [hf] at h; exact absurd h (by simp)
        | ok st2 =>
          simp only [hf] at h
          have h0rest : mapStarts rest = 0 := by
            unfold mapStarts at h0 ⊢
            rw [List.countP_cons] at h0
            have hpos : isMapStart (.start n attrs) = true := by simp [isMapStart, hm]
            rw [if_pos hpos] at h0
            omega
          have hkeeps := foldE_mapAttrUpd_keeps attrs st st2 hf
          have hmain := runEvents_noMap_ok rest st2 none m h0rest
            (fun ls hls => by cases hls) h
          intro l hl
          rcases hmain.2.2 l hl with hmem | hlen
          · rw [hkeeps.1, hln] at hmem
            exact absurd hmem (by simp)
          · exact hlen
      · rw [if_neg hm] at h
        by_cases ht : n = "tileset"
        · rw [if_pos ht] at h
          cases hf : foldE tilesetAttrUpd (none, none) attrs with
          | error msg => rw [hf] at h; exact absurd h (by simp)
          | ok acc =>
            simp only [hf] at h
            cases hg : acc.1 with
            | none => rw [hg] at h; exact absurd h (by simp)
            | some g =>
              simp only [hg] at h
              cases hs : acc.2 with
              | none => rw [hs] at h; exact absurd h (by simp)
              | some srcv =>
                simp only [hs] at h
                exact ih { st with tilesets := st.tilesets ++ [⟨g, srcv⟩] } m h0le hwn hln h
        · rw [if_neg ht] at h
          by_cases hl : n = "layer"
          · rw [if_pos hl] at h
            cases hf : foldE layerAttrUpd (none, true) attrs with
            | error msg => rw [hf] at h; exact absurd h (by simp)
            | ok acc =>
              simp only [hf] at h
              cases ha : acc.1 with
              | none => rw [ha] at h; exact absurd h (by simp)
              | some nm =>
                simp only [ha] at h
                rw [hwn] at h
                exact absurd h (by simp)
          · rw [if_neg hl] at h
            exact ih st m h0le hwn hln h
    | stop n =>
      simp only [runEvents] at h
      exact ih st m h0le hwn hln h
    | text t =>
      simp only [runEvents] at h
      exact ih st m h0le hwn hln h
    | eof =>
      simp only [runEvents] at h
      have hf := finalizeMap_ok st m h
      rw [hwn] at hf
      exact absurd hf.1 (by simp)
    | err msg =>
      simp only [runEvents] at h
      exact absurd h (by simp)

/-- C1 counterexample: a `layer` element opened before the map dimensions are
known does not yield a typed error value; `TiledMap::from_bytes` aborts the
process with the panic of `map_width.unwrap()` (src/tiled_map.rs line 137). -/
theorem c1_counterexample :
    TiledMap.from_bytes [.start "layer" [("name", "lay")], .eof] = .abort unwrapNoneMsg := by
  rfl

/-- C1 (amended): the decode of a finite event stream never returns a typed
error value.  A `layer` start before the map width/height are established
aborts via the `unwrap` panic for any layer name and any continuation of the
stream, and a document that ends while a layer is still open makes the inner
loop spin forever (it ignores end-of-file). -/
theorem c1_malformed_input_panics_or_hangs :
    (∀ (nm : String) (rest : List XEvent),
      TiledMap.from_bytes (.start "layer" [("name", nm)] :: rest) = .abort unwrapNoneMsg) ∧
    TiledMap.from_bytes
      [.start "map" [("width", "1"), ("height", "1"), ("tilewidth", "1"), ("tileheight", "1")],
       .start "layer" [("name", "lay")], .eof] = .hang := by
  exact ⟨fun nm rest => rfl, rfl⟩

/-- C2 counterexample: `TiledMap::from_bytes` does not have the contract
`bytes -> Result<Map, DecodeError>`: on an empty document it aborts the
process (panic of `expect("map width must be set")`) instead of returning an
error value. -/
theorem c2_counterexample :
    TiledMap.from_bytes [] = .abort "map width must be set" := by
  rfl

/-- C2 (amended): `from_bytes` returns a bare `TiledMap`, aborting via panic
on malformed input instead of returning a typed error; but no partial map is
ever returned: a successful decode requires the stream to contain a `map`
start event (the only place the dimensions get set). -/
theorem c2_no_partial_map :
    TiledMap.from_bytes [.eof] = .abort "map width must be set" ∧
    ∀ (evs : List XEvent) (m : TiledMap),
      TiledMap.from_bytes evs = .ok m → hasMapStart evs = true := by
  refine ⟨rfl, ?_⟩
  intro evs m h
  by_contra hn
  have h0 : mapStarts evs = 0 := by
    unfold hasMapStart at hn
    unfold mapStarts
    rw [List.countP_eq_zero]
    intro a ha hpa
    exact hn (List.any_eq_true.mpr ⟨a, ha, hpa⟩)
  have hrun := runEvents_noMap_ok evs initMState none m h0 (fun ls hls => by cases hls) h
  exact absurd hrun.1 (by simp [initMState])

/-- C2 witness: the hypotheses of the amended theorem are satisfiable — a
well-formed minimal map document decodes successfully and contains a `map`
start event. -/
theorem c2_no_partial_map_witness :
    hasMapStart [.start "map" [("width", "1"), ("height", "1"), ("tilewidth", "1"),
      ("tileheight", "1")], .eof] = true :=
  c2_no_partial_map.2 _ ⟨1, 1, 1, 1, [], []⟩ rfl

/-- C3: evaluating the decoder at a `tileset` element that carries BOTH
`firstgid` and `source` shows the copy-paste bug of src/tiled_map.rs lines
92-103: the second match arm is labelled `firstgid` instead of `source`, so
`source` is never recorded and `source.unwrap()` panics; no `TilesetRef` is
ever appended. -/
theorem c3_tileset_source_never_read :
    TiledMap.from_bytes [.start "tileset" [("firstgid", "1"), ("source", "a.tsx")], .eof] =
      .abort unwrapNoneMsg := by
  rfl

/-- C7 counterexample: a `layer` element closed without any text payload is
NOT reported as an error — the decode succeeds and the layer is silently
omitted from the output. -/
theorem c7_counterexample :
    TiledMap.from_bytes
      [.start "map" [("width", "1"), ("height", "1"), ("tilewidth", "1"), ("tileheight", "1")],
       .start "layer" [("name", "l")], .stop "layer", .eof] =
      .ok ⟨1, 1, 1, 1, [], []⟩ := by
  rfl

/-- C7 (amended): a `layer` closed without a processed text payload — with or
without an empty `data` block — is silently dropped: no error is raised and no
`TiledLayer` is appended, for any layer name. -/
theorem c7_empty_layer_silently_dropped :
    (∀ nm : String, TiledMap.from_bytes
      [.start "map" [("width", "1"), ("height", "1"), ("tilewidth", "1"), ("tileheight", "1")],
       .start "layer" [("name", nm)], .stop "layer", .eof] = .ok ⟨1, 1, 1, 1, [], []⟩) ∧
    (∀ nm : String, TiledMap.from_bytes
      [.start "map" [("width", "1"), ("height", "1"), ("tilewidth", "1"), ("tileheight", "1")],
       .start "layer" [("name", nm)], .start "data" [("encoding", "base64")], .stop "data",
       .stop "layer", .eof] = .ok ⟨1, 1, 1, 1, [], []⟩) := by
  exact ⟨fun nm => rfl, fun nm => rfl⟩

/-- C5 counterexample: decoded leftover bytes that do not form a complete
4-byte group are NOT a malformed-payload failure — with width=height=1 a
payload of 6 bytes (base64 "AQAAAAkJ") yields a `TiledLayer` with the single
tile 1 and the 2 trailing bytes are silently ignored. -/
theorem c5_counterexample :
    TiledMap.from_bytes
      [.start "map" [("width", "1"), ("height", "1"), ("tilewidth", "1"), ("tileheight", "1")],
       .start "layer" [("name", "l")], .start "data" [("encoding", "base64")],
       .text "AQAAAAkJ", .stop "data", .stop "layer", .eof] =
      .ok ⟨1, 1, 1, 1, [⟨"l", true, [1]⟩], []⟩ := by
  rfl

/-- C5 (amended): a payload with fewer than width*height decodable u32 words
aborts with the panic of `read_u32().unwrap()` (any byte list shorter than
4*count reads as `none`; the spec example of 8 words against width=3,height=3
aborts the whole decode and no layer is produced), while decoded bytes beyond
the first width*height words — including a trailing incomplete 4-byte group —
are silently ignored and a layer IS produced. -/
theorem c5_truncation_panics_leftover_ignored :
    (∀ (bs : List Nat) (n : Nat), bs.length < 4 * n → readU32s bs n = none) ∧
    TiledMap.from_bytes
      [.start "map" [("width", "3"), ("height", "3"), ("tilewidth", "1"), ("tileheight", "1")],
       .start "layer" [("name", "l")], .start "data" [("encoding", "base64")],
       .text (String.mk (b64Encode (tilesToLE [1, 2, 3, 4, 5, 6, 7, 8]))),
       .stop "data", .stop "layer", .eof] = .abort readU32PanicMsg ∧
    TiledMap.from_bytes
      [.start "map" [("width", "1"), ("height", "1"), ("tilewidth", "1"), ("tileheight", "1")],
       .start "layer" [("name", "l")], .start "data" [("encoding", "base64")],
       .text (String.mk (b64Encode [2, 0, 0, 0, 5, 5, 5])),
       .stop "data", .stop "layer", .eof] = .ok ⟨1, 1, 1, 1, [⟨"l", true, [2]⟩], []⟩ := by
  refine ⟨fun bs n hb => readU32s_short n bs hb, by rfl, by rfl⟩

/-- C5 witness: the truncation hypothesis is satisfiable — the empty byte list
is shorter than one 4-byte word and indeed reads as `none`. -/
theorem c5_witness : ([] : List Nat).length < 4 * 1 ∧ readU32s [] 1 = none :=
  ⟨by decide, c5_truncation_panics_leftover_ignored.1 [] 1 (by decide)⟩

/-- C6: text inside a data block whose recorded encoding is anything other
than "base64" (or absent) is a hard failure — the decode stops with the panic
message naming the encoding requirement, and the text is never treated as
base64; concretely, `encoding="csv"` fails this way. -/
theorem c6_unsupported_encoding_fails :
    (∀ (st : MState) (ls : LState) (e t : String) (rest : List XEvent),
      ls.state_is_in_data = true → ls.encoding = some e → e ≠ "base64" →
      runEvents (.text t :: rest) st (some ls) =
        .abort "layer data must be encoded with base64") ∧
    (∀ (st : MState) (ls : LState) (t : String) (rest : List XEvent),
      ls.state_is_in_data = true → ls.encoding = none →
      runEvents (.text t :: rest) st (some ls) =
        .abort "layer data must have a set encoding") ∧
    TiledMap.from_bytes
      [.start "map" [("width", "1"), ("height", "1"), ("tilewidth", "1"), ("tileheight", "1")],
       .start "layer" [("name", "l")], .start "data" [("encoding", "csv")],
       .text "1,2", .stop "data", .stop "layer", .eof] =
      .abort "layer data must be encoded with base64" := by
  refine ⟨?_, ?_, by rfl⟩
  · intro st ls e t rest h1 h2 h3
    simp only [runEvents, h1, h2, if_true]
    rw [if_neg h3]
  · intro st ls t rest h1 h2
    simp only [runEvents, h1, h2, if_true]

/-- C6 witness: the hypotheses are satisfiable at a concrete in-data state
recording `encoding="csv"`. -/
theorem c6_witness :
    runEvents [.text "1,2"] initMState (some ⟨"l", true, 1, 1, some "csv", true⟩) =
      .abort "layer data must be encoded with base64" :=
  c6_unsupported_encoding_fails.1 initMState ⟨"l", true, 1, 1, some "csv", true⟩ "csv" "1,2" []
    rfl rfl (by decide)

/-- C8 counterexample: the success invariant does not hold as stated — a map
declaring width="0" decodes successfully (zero is accepted, positivity is not
enforced), and a document with a second `map` element after a layer yields a
map whose final width*height (3) differs from the layer tile count (2). -/
theorem c8_counterexample :
    TiledMap.from_bytes [.start "map" [("width", "0"), ("height", "2"), ("tilewidth", "3"),
      ("tileheight", "4")], .eof] = .ok ⟨0, 2, 3, 4, [], []⟩ ∧
    TiledMap.from_bytes
      [.start "map" [("width", "2"), ("height", "1"), ("tilewidth", "1"), ("tileheight", "1")],
       .start "layer" [("name", "l")], .start "data" [("encoding", "base64")],
       .text (String.mk (b64Encode (tilesToLE [5, 7]))), .stop "data", .stop "layer",
       .start "map" [("width", "3")], .eof] =
      .ok ⟨3, 1, 1, 1, [⟨"l", true, [5, 7]⟩], []⟩ := ⟨rfl, rfl⟩

/-- C8 (amended): after a successful decode all four dimensions were set from
the document (a map missing `tileheight` aborts at end of input), but they may
be zero; and provided the stream has at most one `map` start event and
width*height fits in 32 bits, every layer of the result has exactly
width*height tiles. -/
theorem c8_success_dims_set_and_layer_sizes :
    TiledMap.from_bytes [.start "map" [("width", "1"), ("height", "1"), ("tilewidth", "1")],
      .eof] = .abort "map tile height must me set" ∧
    ∀ (evs : List XEvent) (m : TiledMap),
      mapStarts evs ≤ 1 → TiledMap.from_bytes evs = .ok m →
      m.width * m.height < 4294967296 →
      ∀ l ∈ m.layers, l.tiles.length = m.width * m.height := by
  refine ⟨rfl, ?_⟩
  intro evs m h1 h2 hlt l hl
  have hrun := runEvents_oneMap_ok evs initMState m h1 rfl rfl h2 l hl
  rwa [expectedTileCount, Nat.mod_eq_of_lt hlt] at hrun

/-- C8 witness: the hypotheses are satisfiable on a well-formed one-map
document with one 2x2 layer. -/
theorem c8_witness :
    mapStarts [.start "map" [("width", "2"), ("height", "2"), ("tilewidth", "1"),
        ("tileheight", "1")], .start "layer" [("name", "lay")],
      .start "data" [("encoding", "base64")],
      .text (String.mk (b64Encode (tilesToLE [1, 2, 3, 4]))), .stop "data", .stop "layer",
      .eof] ≤ 1 ∧
    ∀ l ∈ (TiledMap.mk 2 2 1 1 [⟨"lay", true, [1, 2, 3, 4]⟩] []).layers,
      l.tiles.length = 2 * 2 :=
  ⟨by decide,
    c8_success_dims_set_and_layer_sizes.2
      [.start "map" [("width", "2"), ("height", "2"), ("tilewidth", "1"), ("tileheight", "1")],
        .start "layer" [("name", "lay")], .start "data" [("encoding", "base64")],
        .text (String.mk (b64Encode (tilesToLE [1, 2, 3, 4]))), .stop "data", .stop "layer",
        .eof]
      ⟨2, 2, 1, 1, [⟨"lay", true, [1, 2, 3, 4]⟩], []⟩ (by decide) rfl (by decide)⟩

/-- C9 counterexample: the expected tile count is NOT the exact mathematical
product for every pair of u32 dimensions — at width=height=65536 the u32
multiplication wraps to 0, and the decoder then happily produces a layer with
an empty tile list from a 3-byte payload. -/
theorem c9_counterexample :
    expectedTileCount 65536 65536 ≠ 65536 * 65536 ∧
    TiledMap.from_bytes
      [.start "map" [("width", "65536"), ("height", "65536"), ("tilewidth", "1"),
        ("tileheight", "1")],
       .start "layer" [("name", "l")], .start "data" [("encoding", "base64")],
       .text "AQAA", .stop "data", .stop "layer", .eof] =
      .ok ⟨65536, 65536, 1, 1, [⟨"l", true, []⟩], []⟩ :=
  ⟨by decide, rfl⟩

/-- C9 (amended): the decoder multiplies width and height in 32-bit
arithmetic with no widening and no bounds check: the expected count is
width*height modulo 2^32 (release semantics; a debug build would abort on the
overflowing multiplication), and it equals the mathematical product exactly
when that product is below 2^32. -/
theorem c9_expected_count_wraps :
    (∀ w h : Nat, expectedTileCount w h = w * h % 4294967296) ∧
    (∀ w h : Nat, w * h < 4294967296 → expectedTileCount w h = w * h) := by
  refine ⟨fun w h => rfl, fun w h hlt => ?_⟩
  rw [expectedTileCount, Nat.mod_eq_of_lt hlt]

/-- C9 witness: the no-overflow hypothesis is satisfiable, e.g. at 2x2. -/
theorem c9_witness : 2 * 2 < 4294967296 ∧ expectedTileCount 2 2 = 2 * 2 :=
  ⟨by decide, c9_expected_count_wraps.2 2 2 (by decide)⟩

/-- C10: layer payload decoding is a right inverse of encoding — serializing
any u32 tile sequence little-endian, base64-encoding it, and decoding with the
matching expected count returns the identical sequence; in particular, the
2x2 map whose payload encodes [1,2,3,4] decodes to a layer with exactly those
tiles. -/
theorem c10_roundtrip :
    (∀ ts : List Nat, (∀ x ∈ ts, x < 4294967296) →
      decodeLayerPayload (String.mk (b64Encode (tilesToLE ts))) ts.length = .ok ts) ∧
    TiledMap.from_bytes
      [.start "map" [("width", "2"), ("height", "2"), ("tilewidth", "1"), ("tileheight", "1")],
       .start "layer" [("name", "l")], .start "data" [("encoding", "base64")],
       .text (String.mk (b64Encode (tilesToLE [1, 2, 3, 4]))), .stop "data", .stop "layer",
       .eof] = .ok ⟨2, 2, 1, 1, [⟨"l", true, [1, 2, 3, 4]⟩], []⟩ := by
  refine ⟨?_, by rfl⟩
  intro ts hts
  simp only [decodeLayerPayload, b64Decode_mk, b64_roundtrip (tilesToLE ts) (tilesToLE_lt ts),
    readU32s_tilesToLE ts hts]

/-- C10 witness: the round-trip hypothesis is satisfiable at [1, 2, 3, 4]. -/
theorem c10_witness :
    (∀ x ∈ [1, 2, 3, 4], x < 4294967296) ∧
    decodeLayerPayload (String.mk (b64Encode (tilesToLE [1, 2, 3, 4]))) 4 = .ok [1, 2, 3, 4] :=
  ⟨by decide, c10_roundtrip.1 [1, 2, 3, 4] (by decide)⟩
